import Mathlib

/-!
Verification of the RobsCron9000 scheduling core against its specification.

The definitions below are a shallow embedding of the Python sources:

* `src/robcorn/scheduler.py`  — due-job resolution (`SchedulerEngine._get_due_jobs`,
  `_has_run_log`, `weekday_mask`) and the engine start/stop state machine;
* `src/robcorn/repository.py` — `Repository.next_run_for_job` and the three
  `_next_recurring_run` / `_next_date_run` / `_next_monthly_run` helpers;
* `src/robcorn/runner.py`     — `JobRunner.run_job`, `_build_command`,
  `persist_run`, `_run_api`, `_run_tool`, `_split_params`, `_parse_headers`;
* `src/robcorn/tools.py`      — `serialize_tool_params`, `parse_tool_params`,
  `validate_tool_params`;
* `src/robcorn/schedule_api.py` and `Schedule API/request.py` — the HTTP client
  (`perform_request`) with its retry loop;
* `src/robcorn/db.py`         — the `run_logs` unique index together with the
  `INSERT OR REPLACE` statement of `persist_run`.

Machine-level effects (filesystem, network, subprocesses, Win32 calls, wall
clock) are passed in as explicit oracle functions on an environment record;
SQLite tables are lists of row records, with `INSERT OR REPLACE` under the
unique index modelled as delete-matching-keys-then-append.
-/

/-! ## Calendar and clock model

Python `datetime.date` values are triples year/month/day compared
lexicographically; a `datetime.datetime` additionally carries the minute of the
day (`hour * 60 + minute`, the only intra-day granularity the scheduler reads)
and the seconds part (read only through ordering comparisons).  Sub-second
precision is never observed by the code under verification and is dropped.
-/

structure Date where
  year : Nat
  month : Nat
  day : Nat
deriving DecidableEq, Repr

structure Instant where
  date : Date
  minuteOfDay : Nat
  second : Nat
deriving DecidableEq, Repr

/-- Lexicographic strict order on dates, as Python compares `datetime.date`. -/
def Date.ltB (a b : Date) : Bool :=
  decide (a.year < b.year) ||
    (a.year == b.year &&
      (decide (a.month < b.month) || (a.month == b.month && decide (a.day < b.day))))

/-- Non-strict order on dates. -/
def Date.leB (a b : Date) : Bool := Date.ltB a b || a == b

/-- Lexicographic strict order on instants, as Python compares `datetime.datetime`. -/
def Instant.ltB (a b : Instant) : Bool :=
  Date.ltB a.date b.date ||
    (a.date == b.date &&
      (decide (a.minuteOfDay < b.minuteOfDay) ||
        (a.minuteOfDay == b.minuteOfDay && decide (a.second < b.second))))

/-- Non-strict order on instants. -/
def Instant.leB (a b : Instant) : Bool := Instant.ltB a b || a == b

/-- Gregorian leap-year rule, as used by Python's `calendar` module. -/
def isLeapYear (y : Nat) : Bool :=
  y % 4 == 0 && (y % 100 != 0 || y % 400 == 0)

/-- Number of days in a month: `calendar.monthrange(y, m)[1]`. -/
def daysInMonth (y m : Nat) : Nat :=
  if m == 2 then (if isLeapYear y then 29 else 28)
  else if m == 4 || m == 6 || m == 9 || m == 11 then 30
  else 31

/-- The day after `d` (the effect of adding `timedelta(days=1)`). -/
def Date.next (d : Date) : Date :=
  if d.day + 1 ≤ daysInMonth d.year d.month then ⟨d.year, d.month, d.day + 1⟩
  else if d.month + 1 ≤ 12 then ⟨d.year, d.month + 1, 1⟩
  else ⟨d.year + 1, 1, 1⟩

/-- Adding `timedelta(days=k)` to a date. -/
def addDays (d : Date) : Nat → Date
  | 0 => d
  | k + 1 => addDays d.next k

/-- Sakamoto's congruence for the day of the week, shifted so that
0 = Monday … 6 = Sunday, matching Python's `datetime.weekday()`. -/
def pyWeekday (d : Date) : Nat :=
  let y : Int := if d.month < 3 then (d.year : Int) - 1 else (d.year : Int)
  let t : Int := ([0, 3, 2, 5, 0, 3, 5, 1, 4, 6, 2, 4].getD (d.month - 1) 0 : Nat)
  (((y + y / 4 - y / 100 + y / 400 + t + (d.day : Int) + 6) % 7)).toNat

/-- Models `weekday_mask` from `scheduler.py`: `1 << dt.weekday()`. -/
def weekday_mask (d : Date) : Nat := 1 <<< pyWeekday d

/-- A natural number as decimal digits, zero-padded to width 2
(Python `f"{n:02d}"` for the values that occur). -/
def pad2 (n : Nat) : String :=
  if n < 10 then "0" ++ toString n else toString n

/-- A natural number zero-padded to width 4 (the year part of `date.isoformat()`). -/
def pad4 (n : Nat) : String :=
  if n < 10 then "000" ++ toString n
  else if n < 100 then "00" ++ toString n
  else if n < 1000 then "0" ++ toString n
  else toString n

/-- Models `date.isoformat()`: the `YYYY-MM-DD` rendering of a date. -/
def isoDate (d : Date) : String :=
  pad4 d.year ++ "-" ++ pad2 d.month ++ "-" ++ pad2 d.day

/-- Truncation of an instant to its minute:
`now.replace(second=0, microsecond=0)` in `scheduler.py`. -/
def floorMinute (t : Instant) : Instant := ⟨t.date, t.minuteOfDay, 0⟩

/-- Decimal digits of a string, as `int(s)` accepts for the unsigned day strings
stored by the schedule editor; any non-digit character raises `ValueError`,
modelled as `none`.  The empty string also yields `none` (as `int("")` raises). -/
def parseNatDigits (s : String) : Option Nat :=
  if s.data = [] then none
  else if s.data.all (fun c => c.isDigit) then
    some (s.data.foldl (fun acc c => acc * 10 + (c.toNat - 48)) 0)
  else none

/-- Parse a `YYYY-MM-DD` string as `datetime.fromisoformat(...).date()` does,
returning `none` where Python raises `ValueError` (malformed text or an
out-of-range month or day). -/
def parseIsoDate (s : String) : Option Date :=
  match s.data.splitOn '-' with
  | [ys, ms, ds] =>
    match parseNatDigits (String.mk ys), parseNatDigits (String.mk ms), parseNatDigits (String.mk ds) with
    | some y, some m, some d =>
      if 1 ≤ m && m ≤ 12 && 1 ≤ d && d ≤ daysInMonth y m then some ⟨y, m, d⟩ else none
    | _, _, _ => none
  | _ => none

/-! ## Data model

Rows of the four SQLite tables of `db.py`, as read back by `models.py`.
`Job.from_row` coerces SQL `NULL` text to `""` and parses `last_run_at`
with `datetime.fromisoformat`; the model stores the already-parsed value.
The `created_at` / `updated_at` bookkeeping columns are not read by any of
the code under verification and are omitted.
-/

structure Job where
  id : Nat
  name : String
  description : String
  send_to : String
  program_path : String
  parameters : String
  batch_path : String
  api_enabled : Bool
  api_method : String
  api_url : String
  api_headers : String
  api_body : String
  api_auth_type : String
  api_auth_value : String
  api_timeout : Nat
  api_retries : Nat
  active : Bool
  once_per_day : Bool
  autostart : Bool
  run_as_enabled : Bool
  run_as_admin : Bool
  run_as_user : String
  run_as_domain : String
  run_as_password : String
  last_run_at : Option Instant
deriving DecidableEq, Repr

/-- A row of the `schedules` table (`ScheduleSlot` in `models.py`). -/
structure SlotRow where
  id : Nat
  job_id : Nat
  schedule_type : String
  days_mask : Nat
  date : Option String
  minute_of_day : Nat
  active : Bool
deriving DecidableEq, Repr

/-- A row of the `run_logs` table.  `scheduled_time` is stored by
`persist_run` as `isoformat(timespec="minutes")`, which on the minute-aligned
instants the scheduler produces is injectively determined by the date and the
minute of the day; the model stores that pair directly. -/
structure RunLogRow where
  job_id : Nat
  scheduled_time : Date × Nat
  start_time : Instant
  end_time : Instant
  status : String
  exit_code : Option Int
  output : String
  error : String
deriving DecidableEq, Repr

/-- The persistent state: the three tables the scheduling core touches. -/
structure DB where
  jobs : List Job
  schedules : List SlotRow
  run_logs : List RunLogRow
deriving DecidableEq, Repr

/-- Outcome record of one run (`RunResult` in `runner.py`). -/
structure RunResult where
  status : String
  exit_code : Option Int
  output : String
  error : String
  start_time : Instant
  end_time : Instant
deriving DecidableEq, Repr

/-- An entry of the list returned by `SchedulerEngine._get_due_jobs`
(`DueJob` in `scheduler.py`). -/
structure DueJob where
  job : Job
  schedule_id : Nat
  scheduled_time : Instant
deriving DecidableEq, Repr

/-! ## Due-job resolution (`SchedulerEngine._get_due_jobs`) -/

/-- The kind-specific date condition of the SQL `WHERE` clause in
`_get_due_jobs`: recurring slots match on the weekday bit, `date` slots on
today's ISO string, `monthly` slots on today's zero-padded day-of-month
string (`f"{now.day:02d}"`). -/
def typeCond (s : SlotRow) (now : Instant) : Bool :=
  (s.schedule_type == "recurring" && (s.days_mask &&& weekday_mask now.date) != 0)
  || (s.schedule_type == "date" && s.date == some (isoDate now.date))
  || (s.schedule_type == "monthly" && s.date == some (pad2 now.date.day))

/-- The rows produced by the SQL query of `_get_due_jobs`:
`schedules JOIN jobs` filtered by `j.active = 1 AND s.active = 1 AND
s.minute_of_day = ? AND (kind-specific condition)`. -/
def sqlDueRows (db : DB) (now : Instant) : List (Job × SlotRow) :=
  (db.schedules.flatMap fun s =>
    (db.jobs.filter fun j => j.id == s.job_id).map fun j => (j, s)) |>.filter
      fun js => js.1.active && js.2.active &&
        js.2.minute_of_day == now.minuteOfDay && typeCond js.2 now

/-- The once-per-day guard of `_get_due_jobs`: `job.once_per_day` and
`job.last_run_at.date().isoformat() == today`. -/
def suppressedToday (j : Job) (now : Instant) : Bool :=
  j.once_per_day &&
    (match j.last_run_at with
     | some lr => isoDate lr.date == isoDate now.date
     | none => false)

/-- Models `SchedulerEngine._has_run_log`: an existing `run_logs` row for
`(job_id, scheduled_time.isoformat(timespec="minutes"))`. -/
def hasRunLog (db : DB) (jobId : Nat) (now : Instant) : Bool :=
  db.run_logs.any fun rl =>
    rl.job_id == jobId && rl.scheduled_time == (now.date, now.minuteOfDay)

/-- The Python post-filter body of the row loop in `_get_due_jobs`: skip
suppressed jobs, skip jobs that already have a run log for this minute, and
for `monthly` rows re-parse the stored day (`int(row["date"] or "0")`,
`ValueError` skips the row) and apply the clamp check
`scheduled_day > last_day and now.day != last_day`. -/
def dueRowStep (db : DB) (now : Instant) (js : Job × SlotRow) : Option DueJob :=
  let j := js.1
  let s := js.2
  if suppressedToday j now then none
  else if hasRunLog db j.id now then none
  else if s.schedule_type == "monthly" then
    let dstr := if s.date.getD "" = "" then "0" else s.date.getD ""
    match parseNatDigits dstr with
    | none => none
    | some scheduledDay =>
      let lastDay := daysInMonth now.date.year now.date.month
      if scheduledDay > lastDay && now.date.day != lastDay then none
      else some ⟨j, s.id, floorMinute now⟩
  else some ⟨j, s.id, floorMinute now⟩

/-- Models `SchedulerEngine._get_due_jobs(now)`. -/
def getDueJobs (db : DB) (now : Instant) : List DueJob :=
  (sqlDueRows db now).filterMap (dueRowStep db now)

/-! ## Run persistence (`JobRunner.persist_run`)

`persist_run` executes `INSERT OR REPLACE INTO run_logs ...` under the unique
index `idx_run_logs_unique ON run_logs(job_id, scheduled_time)` from `db.py`,
then `UPDATE jobs SET last_run_at = ...`.  SQLite's `INSERT OR REPLACE`
deletes every row that conflicts on a unique index and then inserts the new
row, modelled as filter-out-the-key-then-append. -/

def runLogKey (jobId : Nat) (st : Instant) (rl : RunLogRow) : Bool :=
  rl.job_id == jobId && rl.scheduled_time == (st.date, st.minuteOfDay)

/-- The row `persist_run` inserts for `(job_id, scheduled_time, result)`. -/
def mkRunLogRow (jobId : Nat) (st : Instant) (r : RunResult) : RunLogRow :=
  ⟨jobId, (st.date, st.minuteOfDay), r.start_time, r.end_time,
    r.status, r.exit_code, r.output, r.error⟩

/-- Models `JobRunner.persist_run`. -/
def persistRun (db : DB) (jobId : Nat) (st : Instant) (r : RunResult) : DB :=
  { db with
    run_logs :=
      (db.run_logs.filter fun rl => !runLogKey jobId st rl) ++ [mkRunLogRow jobId st r]
    jobs := db.jobs.map fun j =>
      if j.id == jobId then { j with last_run_at := some r.end_time } else j }

/-! ## Engine lifecycle (`SchedulerEngine.start` / `ensure_running`)

The thread-level state observed by `start`, `ensure_running` and
`is_running`: whether `self._thread` has been assigned, whether that thread
is alive, and whether the stop event is set.  `start` spawns a new loop
thread only when the current one is absent or dead. -/

structure EngineState where
  threadSpawned : Bool
  threadAlive : Bool
  stopEventSet : Bool
deriving DecidableEq, Repr

/-- Models `SchedulerEngine.is_running`: `bool(self._thread and self._thread.is_alive())`. -/
def isRunning (s : EngineState) : Bool := s.threadSpawned && s.threadAlive

/-- Models `SchedulerEngine.start`: return unchanged when the loop thread is alive,
otherwise clear the stop event and spawn a fresh loop thread. -/
def engineStart (s : EngineState) : EngineState :=
  if s.threadSpawned && s.threadAlive then s
  else { threadSpawned := true, threadAlive := true, stopEventSet := false }

/-- Models `SchedulerEngine.ensure_running`: call `start` only when no loop thread
is alive. -/
def ensureRunning (s : EngineState) : EngineState :=
  if !(s.threadSpawned && s.threadAlive) then engineStart s else s

inductive EngineOp where
  | opStart
  | opEnsure
deriving DecidableEq, Repr

/-- Interpretation of a lifecycle call against the engine state. -/
def applyEngineOp (s : EngineState) : EngineOp → EngineState
  | .opStart => engineStart s
  | .opEnsure => ensureRunning s

/-- A sequence of `start()` / `ensure_running()` calls. -/
def applyEngineOps (s : EngineState) : List EngineOp → EngineState
  | [] => s
  | o :: os => applyEngineOps (applyEngineOp s o) os

/-! ## Next-run resolution (`Repository.next_run_for_job`)

`next_run_for_job` selects the job's active slots ordered by
`minute_of_day` and dispatches on the first slot's `schedule_type` to one of
three scan functions.  `_minute_to_datetime` is the construction
`reference.replace(hour=..., minute=..., second=0, microsecond=0)`, i.e. the
instant with the reference's date, the slot's minute and zero seconds. -/

/-- Stable insertion sort by `minute_of_day`, modelling `ORDER BY minute_of_day`. -/
def insertByMinute (s : SlotRow) : List SlotRow → List SlotRow
  | [] => [s]
  | x :: xs =>
    if s.minute_of_day < x.minute_of_day then s :: x :: xs
    else x :: insertByMinute s xs

def sortByMinute : List SlotRow → List SlotRow
  | [] => []
  | x :: xs => insertByMinute x (sortByMinute xs)

/-- The `WHERE job_id = ? AND active = 1 ... ORDER BY minute_of_day` row set
of `next_run_for_job`. -/
def activeSortedSlots (slots : List SlotRow) (jobId : Nat) : List SlotRow :=
  sortByMinute (slots.filter fun s => s.job_id == jobId && s.active)

/-- The slot filter of `_next_recurring_run` for day offset `k`: the slot's
mask contains the weekday bit of `now + k days`, and on offset 0 slots with
`minute_of_day < now.hour * 60 + now.minute` are skipped. -/
def recPred (now : Instant) (k : Nat) (s : SlotRow) : Bool :=
  ((s.days_mask &&& weekday_mask (addDays now.date k)) != 0) &&
    !(k == 0 && decide (s.minute_of_day < now.minuteOfDay))

/-- The `for day_offset in range(0, 8)` scan of `_next_recurring_run`. -/
def nextRecurringAux (slots : List SlotRow) (now : Instant) : List Nat → Option Instant
  | [] => none
  | k :: ks =>
    match slots.find? (recPred now k) with
    | some s => some ⟨addDays now.date k, s.minute_of_day, 0⟩
    | none => nextRecurringAux slots now ks

/-- Models `_next_recurring_run(now, slots)`. -/
def nextRecurringRun (slots : List SlotRow) (now : Instant) : Option Instant :=
  nextRecurringAux slots now (List.range 8)

/-- The slot filter shared by `_next_date_run` and `_next_monthly_run`:
`if target == now.date() and slot["minute_of_day"] < now-minute: continue`. -/
def notPastOn (now : Instant) (target : Date) (s : SlotRow) : Bool :=
  !((target == now.date) && decide (s.minute_of_day < now.minuteOfDay))

/-- Models `_next_date_run(now, slots)`: parse `slots[0]["date"]` (empty or `None`
returns `None`, `ValueError` returns `None`), give up if the date is past,
otherwise return the first slot not already past on that date. -/
def nextDateRun (slots : List SlotRow) (now : Instant) : Option Instant :=
  match slots with
  | [] => none
  | s0 :: _ =>
    match s0.date with
    | none => none
    | some dstr =>
      if dstr = "" then none
      else
        match parseIsoDate dstr with
        | none => none
        | some target =>
          if Date.ltB target now.date then none
          else
            match slots.find? (notPastOn now target) with
            | some s => some ⟨target, s.minute_of_day, 0⟩
            | none => none

/-- The candidate year/month of `_next_monthly_run` for month offset `j`:
`target_month = month + j`, `target_year = year + (target_month - 1) // 12`,
`target_month = (target_month - 1) % 12 + 1` (Python floor division and
modulus, here `Int./` and `Int.%`). -/
def monthCandidate (d : Date) (j : Nat) : Nat × Nat :=
  let tm0 : Int := (d.month : Int) + (j : Int)
  (((d.year : Int) + (tm0 - 1) / 12).toNat, ((tm0 - 1) % 12 + 1).toNat)

/-- The candidate date of `_next_monthly_run` for month offset `j`:
`run_day = min(scheduled_day, last_day)` on the candidate year/month. -/
def monthlyTarget (d : Date) (sday j : Nat) : Date :=
  let ym := monthCandidate d j
  ⟨ym.1, ym.2, min sday (daysInMonth ym.1 ym.2)⟩

/-- The `for month_offset in range(0, 13)` scan of `_next_monthly_run`.
`datetime(y, m, 0)` (which arises exactly when the stored day parses to 0)
raises `ValueError` out of the function, modelled as `none`. -/
def nextMonthlyAux (slots : List SlotRow) (now : Instant) (sday : Nat) :
    List Nat → Option Instant
  | [] => none
  | j :: js =>
    let target := monthlyTarget now.date sday j
    if target.day = 0 then none
    else if Date.ltB target now.date then nextMonthlyAux slots now sday js
    else
      match slots.find? (notPastOn now target) with
      | some s => some ⟨target, s.minute_of_day, 0⟩
      | none => nextMonthlyAux slots now sday js

/-- Models `_next_monthly_run(now, slots)`: `int(slots[0]["date"] or "")` with
`ValueError` giving `None`, then the thirteen-month scan. -/
def nextMonthlyRun (slots : List SlotRow) (now : Instant) : Option Instant :=
  match slots with
  | [] => none
  | s0 :: _ =>
    match parseNatDigits (s0.date.getD "") with
    | none => none
    | some sday => nextMonthlyAux slots now sday (List.range 13)

/-- Models `Repository.next_run_for_job(job_id)` evaluated at reference instant
`now` over the `schedules` table `slots`. -/
def nextRunForJob (slots : List SlotRow) (jobId : Nat) (now : Instant) : Option Instant :=
  match activeSortedSlots slots jobId with
  | [] => none
  | s0 :: rest =>
    if s0.schedule_type == "date" then nextDateRun (s0 :: rest) now
    else if s0.schedule_type == "monthly" then nextMonthlyRun (s0 :: rest) now
    else nextRecurringRun (s0 :: rest) now

/-! ## Tool parameter encoding (`tools.py`) -/

/-- Join characters with a separator, modelling Python `sep.join(parts)`. -/
def joinChar (sep : Char) : List (List Char) → List Char
  | [] => []
  | [x] => x
  | x :: y :: xs => x ++ sep :: joinChar sep (y :: xs)

/-- Split on a separator character, modelling Python `s.split(sep)`
(so `"" ↦ [""]`, `";" ↦ ["", ""]`, `"a;;b" ↦ ["a", "", "b"]`). -/
def splitChar (sep : Char) : List Char → List (List Char)
  | [] => [[]]
  | c :: cs =>
    match splitChar sep cs with
    | t :: ts => if c = sep then [] :: t :: ts else (c :: t) :: ts
    | [] => [[]]

/-- Python-dict assignment on an insertion-ordered association list:
an existing key keeps its position and gets the new value, a new key is
appended. -/
def dictInsert (l : List (String × String)) (k v : String) : List (String × String) :=
  if l.any (fun kv => kv.1 == k) then
    l.map fun kv => if kv.1 == k then (k, v) else kv
  else l ++ [(k, v)]

/-- Models `serialize_tool_params`: `";".join(f"{key}={value}" ...)`. -/
def serialize_tool_params (params : List (String × String)) : String :=
  String.mk (joinChar ';' (params.map fun kv => kv.1.data ++ '=' :: kv.2.data))

/-- The loop body of `parse_tool_params`: skip empty items, items without `=`
map to the empty value, other items split at the first `=`. -/
def parseItemStep (acc : List (String × String)) (item : List Char) :
    List (String × String) :=
  if item = [] then acc
  else if '=' ∈ item then
    let k := item.takeWhile (fun c => c ≠ '=')
    let v := (item.dropWhile (fun c => c ≠ '=')).tail
    dictInsert acc (String.mk k) (String.mk v)
  else dictInsert acc (String.mk item) ""

/-- Models `parse_tool_params`: empty input gives the empty dict; otherwise split on
`;` and fold the items into the dict. -/
def parse_tool_params (raw : String) : List (String × String) :=
  if raw.data = [] then []
  else (splitChar ';' raw.data).foldl parseItemStep []

/-- The lookup `params.get(key)` coerced through Python truthiness: a missing key and an
empty value are both falsy. -/
def lookupParam (params : List (String × String)) (k : String) : String :=
  ((params.find? fun kv => kv.1 == k).map fun kv => kv.2).getD ""

/-- Models `_require_field` from `tools.py` as the list of messages it appends. -/
def requireField (params : List (String × String)) (k : String) : List String :=
  if lookupParam params k == "" then ["Missing " ++ k ++ "."] else []

/-- Models `validate_tool_params`. -/
def validate_tool_params (tool : String) (params : List (String × String)) : List String :=
  if tool == "copy" || tool == "move" || tool == "zip" then
    requireField params "source" ++ requireField params "destination"
  else if tool == "delete" then requireField params "target"
  else if tool == "download" then
    requireField params "url" ++ requireField params "destination"
  else if tool == "email" then
    ["smtp_host", "smtp_port", "sender", "recipient", "subject", "body"].flatMap
      (requireField params)
  else if tool == "wallpaper" then requireField params "image_path"
  else if tool == "vpn" then requireField params "command"
  else []

/-! ## Command tokenization (`runner._split_params`)

`shlex.split(params, posix=False)` with whitespace splitting: tokens are
separated by whitespace, a quote character opens a quoted section that runs to
the matching quote and is kept verbatim inside the token, and an unterminated
quote raises `ValueError` ("No closing quotation"), modelled as `none`. -/

def isSpaceChar (c : Char) : Bool :=
  c == ' ' || c == '\t' || c == '\n' || c == '\r'

/-- Consume characters up to the closing quote `q`; `none` when the input
ends first.  Returns the consumed span (closing quote included) and the rest. -/
def takeQuoted (q : Char) : List Char → Option (List Char × List Char)
  | [] => none
  | c :: cs =>
    if c = q then some ([q], cs)
    else
      match takeQuoted q cs with
      | some (span, rest) => some (c :: span, rest)
      | none => none

/-- Non-posix `shlex` scan: `fuel` bounds the recursion (callers pass the
input length, which suffices since every step consumes at least one
character). -/
def shlexScan (fuel : Nat) (cs : List Char) (cur : List Char) (acc : List String) :
    Option (List String) :=
  match fuel with
  | 0 =>
    match cs with
    | [] => some (acc ++ if cur = [] then [] else [String.mk cur.reverse])
    | _ => none
  | fuel + 1 =>
    match cs with
    | [] => some (acc ++ if cur = [] then [] else [String.mk cur.reverse])
    | c :: rest =>
      if isSpaceChar c then
        shlexScan fuel rest [] (acc ++ if cur = [] then [] else [String.mk cur.reverse])
      else if c = '"' || c = '\'' then
        match takeQuoted c rest with
        | none => none
        | some (span, rest2) => shlexScan fuel rest2 (span.reverse ++ c :: cur) acc
      else shlexScan fuel rest (c :: cur) acc

/-- Models `_split_params`: empty parameters give `[]`, otherwise
`shlex.split(params, posix=False)`. -/
def splitParams (params : String) : Option (List String) :=
  if params = "" then some []
  else shlexScan (params.data.length + 1) params.data [] []

/-! ## HTTP client (`Schedule API/request.py`)

The request construction of lines 21–34 (body encoding, default
`Content-Type`, bearer/basic `Authorization` injection) produces a request
object whose content the retry loop passes unchanged to every attempt; the
network is abstracted by a per-attempt `transport` oracle and the
constructibility of the request (`urllib.request.Request` raises `ValueError`
on a malformed URL before the loop) by `urlOk`. -/

structure ApiResult where
  status : Nat
  response : String
  error : String
deriving DecidableEq, Repr

/-- One attempt's outcome at the transport: a response (any status), an
`HTTPError` (server answered with an error status), or a transport-level
exception (connection failure or timeout). -/
inductive TransportOutcome where
  | ok (status : Nat) (text : String)
  | httpError (code : Nat) (text : String) (msg : String)
  | exc (msg : String)
deriving DecidableEq, Repr

structure HttpEnv where
  backendPresent : Bool
  urlOk : Bool
  transport : Nat → TransportOutcome

/-- Errors that escape the embedded functions as Python exceptions. -/
inductive RunErr where
  | importError
  | badUrl
  | badParams
deriving DecidableEq, Repr

/-- The `for attempt in range(attempts)` loop of `perform_request`, indexed by
the remaining attempt count (`≥ 1` at every real call) and the current attempt
index; also returns how many attempts were made.  A response and an
`HTTPError` both return immediately; an exception retries while attempts
remain and otherwise returns status 0 with the last error text. -/
def requestAttemptLoop (transport : Nat → TransportOutcome) :
    Nat → Nat → ApiResult × Nat
  | 0, i => (⟨0, "", ""⟩, i)
  | 1, i =>
    (match transport i with
     | .ok s t => (⟨s, t, ""⟩, i + 1)
     | .httpError c t m => (⟨c, t, m⟩, i + 1)
     | .exc m => (⟨0, "", m⟩, i + 1))
  | r + 2, i =>
    match transport i with
    | .ok s t => (⟨s, t, ""⟩, i + 1)
    | .httpError c t m => (⟨c, t, m⟩, i + 1)
    | .exc _ => requestAttemptLoop transport (r + 1) (i + 1)

/-- Models `perform_request` of `Schedule API/request.py`:
`attempts = max(1, retries + 1)` tries against the transport, after the
request object is built (`.error .badUrl` when that construction raises). -/
def performRequest (env : HttpEnv) (retries : Nat) :
    Except RunErr (ApiResult × Nat) :=
  if env.urlOk then .ok (requestAttemptLoop env.transport (max 1 (retries + 1)) 0)
  else .error .badUrl

/-- Models `schedule_api.perform_request`: dynamic import of the backend module
(`ImportError` when the file is missing), then delegation. -/
def scheduleApiPerform (env : HttpEnv) (retries : Nat) :
    Except RunErr (ApiResult × Nat) :=
  if env.backendPresent then performRequest env retries
  else .error .importError

/-! ## Execution dispatcher (`JobRunner.run_job`)

Filesystem existence, subprocess execution, the Win32 launch primitives, the
tool executor and the wall clock are oracles in a `RunEnv`; `run_job` then
reduces to the branch structure of the source.  Exceptions that the source
catches are oracle constructors mapped to `RunResult`s; exceptions the source
does not catch surface as `Except.error`. -/

/-- Outcome of `subprocess.run` for a command: normal completion,
`TimeoutExpired` (with whatever partial output the platform gave), or any
other exception (e.g. a launch error). -/
inductive ProcOutcome where
  | completed (code : Int) (out err : String)
  | timedOut (out err : String)
  | raised (msg : String)
deriving DecidableEq, Repr

/-- Outcome of a tool action: a reported `ToolResult(success, message)` or an
exception raised inside `_execute_tool`. -/
inductive ToolOutcome where
  | result (ok : Bool) (msg : String)
  | raised (msg : String)
deriving DecidableEq, Repr

/-- Outcome of an elevated or alternate-identity launch: an exit code (with
the captured output for the alternate-identity path), or an exception. -/
inductive LaunchOutcome where
  | exited (code : Int) (captured : String)
  | raised (msg : String)
deriving DecidableEq, Repr

structure RunEnv where
  fileExists : String → Bool
  isWindows : Bool
  http : HttpEnv
  subprocessRun : List String → ProcOutcome
  toolRun : String → List (String × String) → ToolOutcome
  runAsLaunch : List String → LaunchOutcome
  adminLaunch : List String → LaunchOutcome
  now : Instant

/-- The HTTP-mode trigger of `run_job`:
`job.api_enabled and job.api_url and job.api_method`. -/
def httpReady (j : Job) : Bool :=
  j.api_enabled && j.api_url != "" && j.api_method != ""

/-- The utility-action trigger: `job.program_path.startswith("tool:")`. -/
def toolTagged (j : Job) : Bool :=
  "tool:".data.isPrefixOf j.program_path.data

/-- Models `_parse_headers`: split on newlines, skip blank lines and lines without a
colon, split each remaining line at the first colon and strip both halves. -/
def parseHeaders (raw : String) : List (String × String) :=
  if raw = "" then []
  else
    (splitChar '\n' raw.data).foldl
      (fun acc line =>
        if (String.mk line).trim = "" then acc
        else if ':' ∈ line then
          let k := line.takeWhile (fun c => c ≠ ':')
          let v := (line.dropWhile (fun c => c ≠ ':')).tail
          dictInsert acc (String.mk k).trim (String.mk v).trim
        else acc)
      []

/-- Models `JobRunner._build_command`: `None` for tool-tagged paths; a non-empty
`batch_path` must exist and wraps through `cmd.exe /c` (a missing batch file
gives `None` without falling through to `program_path`); otherwise an existing
`program_path` plus the tokenized parameters; `shlex` tokenization failure
raises out of the function. -/
def buildCommand (job : Job) (fileExists : String → Bool) :
    Except RunErr (Option (List String)) :=
  if toolTagged job then .ok none
  else if job.batch_path != "" then
    if fileExists job.batch_path then .ok (some ["cmd.exe", "/c", job.batch_path])
    else .ok none
  else if job.program_path != "" then
    if fileExists job.program_path then
      if job.parameters != "" then
        match splitParams job.parameters with
        | some args => .ok (some (job.program_path :: args))
        | none => .error .badParams
      else .ok (some [job.program_path])
    else .ok none
  else .ok none

/-- Models `JobRunner._run_api`: headers are parsed, the request is delegated to
`schedule_api.perform_request` (whose exceptions propagate), and the response
status maps to the outcome: 2xx is `success`, anything else `failed`, with the
status code as exit code when non-zero. -/
def runApiPath (job : Job) (env : RunEnv) : Except RunErr RunResult :=
  let _headers := parseHeaders job.api_headers
  match scheduleApiPerform env.http job.api_retries with
  | .error e => .error e
  | .ok res =>
    let sc := res.1.status
    .ok ⟨if 200 ≤ sc && sc < 300 then "success" else "failed",
      if sc != 0 then some (sc : Int) else none,
      res.1.response, res.1.error, env.now, env.now⟩

/-- Models `JobRunner._run_tool`: validate the required parameters first (failing
fast with exit code 1 and the joined messages), then execute the action with
every exception caught. -/
def runToolPath (job : Job) (env : RunEnv) : RunResult :=
  let toolName := job.program_path.drop 5
  let params := parse_tool_params job.parameters
  let errors := validate_tool_params toolName params
  if errors != [] then
    ⟨"failed", some 1, "", String.intercalate " " errors, env.now, env.now⟩
  else
    match env.toolRun toolName params with
    | .result ok msg =>
      ⟨if ok then "success" else "failed", some (if ok then 0 else 1),
        if ok then msg else "", if ok then "" else msg, env.now, env.now⟩
    | .raised msg => ⟨"failed", none, "", msg, env.now, env.now⟩

/-- The direct `subprocess.run` path of `run_job`: zero exit is `success`,
non-zero `failed`, `TimeoutExpired` maps to `timeout` with
`"Process timed out."` standing in for absent stderr, and any other exception
maps to `failed`. -/
def runDirectPath (env : RunEnv) (cmd : List String) : RunResult :=
  match env.subprocessRun cmd with
  | .completed code out err =>
    ⟨if code == 0 then "success" else "failed", some code, out, err, env.now, env.now⟩
  | .timedOut out err =>
    ⟨"timeout", none, out, if err == "" then "Process timed out." else err,
      env.now, env.now⟩
  | .raised msg => ⟨"failed", none, "", msg, env.now, env.now⟩

/-- Models `JobRunner._run_as`: refuse off Windows, otherwise launch through
`CreateProcessWithLogonW` with combined output captured via a temporary file;
every exception is caught. -/
def runAsPath (env : RunEnv) (cmd : List String) : RunResult :=
  if !env.isWindows then
    ⟨"failed", none, "", "Run-as is only supported on Windows.", env.now, env.now⟩
  else
    match env.runAsLaunch cmd with
    | .exited code captured =>
      ⟨if code == 0 then "success" else "failed", some code, captured, "",
        env.now, env.now⟩
    | .raised msg => ⟨"failed", none, "", msg, env.now, env.now⟩

/-- Models `JobRunner._run_as_admin`: `ShellExecuteEx` with the `runas` verb, no
captured output by design; every exception is caught. -/
def runAdminPath (env : RunEnv) (cmd : List String) : RunResult :=
  match env.adminLaunch cmd with
  | .exited code _ =>
    ⟨if code == 0 then "success" else "failed", some code, "", "", env.now, env.now⟩
  | .raised msg => ⟨"failed", none, "", msg, env.now, env.now⟩

/-- Models `JobRunner.run_job`: HTTP mode first, then the `tool:` tag, then a
process command built from batch or program path (config failure when none
resolves), dispatched to the elevated, alternate-identity or direct launch. -/
def runJob (job : Job) (env : RunEnv) : Except RunErr RunResult :=
  if httpReady job then runApiPath job env
  else if toolTagged job then .ok (runToolPath job env)
  else
    match buildCommand job env.fileExists with
    | .error e => .error e
    | .ok none =>
      .ok ⟨"failed", none, "", "No executable or batch file configured.",
        env.now, env.now⟩
    | .ok (some cmd) =>
      if job.run_as_admin then .ok (runAdminPath env cmd)
      else if job.run_as_enabled && job.run_as_user != "" && job.run_as_password != "" then
        .ok (runAsPath env cmd)
      else .ok (runDirectPath env cmd)

/-! ## Concrete fixtures

Closed database states, jobs and environments used by the counterexample and
witness theorems below. -/

/-- A minimal active job with no execution target configured. -/
def baseJob : Job :=
  { id := 1
    name := "job"
    description := ""
    send_to := ""
    program_path := ""
    parameters := ""
    batch_path := ""
    api_enabled := false
    api_method := ""
    api_url := ""
    api_headers := ""
    api_body := ""
    api_auth_type := ""
    api_auth_value := ""
    api_timeout := 0
    api_retries := 0
    active := true
    once_per_day := false
    autostart := false
    run_as_enabled := false
    run_as_admin := false
    run_as_user := ""
    run_as_domain := ""
    run_as_password := ""
    last_run_at := none }

/-- Wednesday 2025-04-30 at 10:00:00 (April has 30 days). -/
def wed1000 : Instant := ⟨⟨2025, 4, 30⟩, 600, 0⟩

/-- Wednesday 2025-04-30 at 10:00:30. -/
def wed1000s30 : Instant := ⟨⟨2025, 4, 30⟩, 600, 30⟩

/-- Midnight of 2025-04-30, the last day of a 30-day month. -/
def april30Midnight : Instant := ⟨⟨2025, 4, 30⟩, 0, 0⟩

/-- An active every-day recurring slot of job 1 at minute 600. -/
def recSlot : SlotRow := ⟨11, 1, "recurring", 127, none, 600, true⟩

/-- An active monthly slot of job 1 for stored day-of-month "31" at minute 0. -/
def monthly31Slot : SlotRow := ⟨10, 1, "monthly", 0, some "31", 0, true⟩

/-- Database with the day-31 monthly job. -/
def monthly31DB : DB := ⟨[baseJob], [monthly31Slot], []⟩

/-- The base job marked once-per-day with a last run earlier on 2025-04-30. -/
def ranTodayJob : Job :=
  { baseJob with once_per_day := true, last_run_at := some ⟨⟨2025, 4, 30⟩, 480, 15⟩ }

/-- Database where the once-per-day job has a matching recurring slot. -/
def ranTodayDB : DB := ⟨[ranTodayJob], [recSlot], []⟩

/-- Database with the plain recurring job. -/
def recurringDB : DB := ⟨[baseJob], [recSlot], []⟩

/-- A successful first run outcome. -/
def outcomeOne : RunResult :=
  ⟨"success", some 0, "first output", "", ⟨⟨2025, 4, 30⟩, 600, 0⟩, ⟨⟨2025, 4, 30⟩, 600, 5⟩⟩

/-- A failed second run outcome for the same scheduled minute. -/
def outcomeTwo : RunResult :=
  ⟨"failed", some 1, "", "boom", ⟨⟨2025, 4, 30⟩, 600, 6⟩, ⟨⟨2025, 4, 30⟩, 600, 9⟩⟩

/-- Transport that fails twice at the transport level, then succeeds. -/
def failTwiceTransport : Nat → TransportOutcome := fun n =>
  match n with
  | 0 => .exc "connection refused"
  | 1 => .exc "read timed out"
  | _ => .ok 200 "hello"

/-- Transport whose first answer is an HTTP 404 response. -/
def notFoundTransport : Nat → TransportOutcome := fun n =>
  match n with
  | 0 => .httpError 404 "not found" "HTTP Error 404: Not Found"
  | _ => .ok 200 "unreachable"

/-- HTTP environment for the fail-twice scenario. -/
def failTwiceEnv : HttpEnv := ⟨true, true, failTwiceTransport⟩

/-- HTTP environment for the 404 scenario. -/
def notFoundEnv : HttpEnv := ⟨true, true, notFoundTransport⟩

/-- Runner environment in which the Schedule API backend module is missing,
no file exists, and every launch oracle would report an error if consulted. -/
def noBackendEnv : RunEnv :=
  { fileExists := fun _ => false
    isWindows := true
    http := ⟨false, true, failTwiceTransport⟩
    subprocessRun := fun _ => .raised "unused"
    toolRun := fun _ _ => .raised "unused"
    runAsLaunch := fun _ => .raised "unused"
    adminLaunch := fun _ => .raised "unused"
    now := wed1000 }

/-- Runner environment where only `C:/job.bat` and `C:/tool.exe` exist. -/
def twoFilesEnv : RunEnv :=
  { noBackendEnv with
      fileExists := fun p => p == "C:/job.bat" || p == "C:/tool.exe"
      http := ⟨true, true, failTwiceTransport⟩
      subprocessRun := fun _ => .completed 0 "ran" "" }

/-- An HTTP-mode job. -/
def apiJob : Job :=
  { baseJob with api_enabled := true, api_method := "GET", api_url := "http://host/x" }

/-- A tool-tagged job (with a batch path that must be ignored). -/
def toolJob : Job :=
  { baseJob with program_path := "tool:copy", parameters := "source=a.txt"
                 batch_path := "C:/job.bat" }

/-- A batch job whose batch file exists and whose program path must be ignored. -/
def batchJob : Job :=
  { baseJob with batch_path := "C:/job.bat", program_path := "C:/tool.exe" }

/-- A program job with tokenized arguments. -/
def programJob : Job :=
  { baseJob with program_path := "C:/tool.exe", parameters := "-a \"b c\"" }

/-- A job whose program path does not exist in `twoFilesEnv`. -/
def ghostJob : Job := { baseJob with program_path := "C:/missing.exe" }

/-- A running engine state. -/
def runningEngine : EngineState := ⟨true, true, false⟩

/-- Tool-parameter dictionary exercising an `=` inside a value. -/
def roundTripParams : List (String × String) :=
  [("source", "a.txt"), ("destination", "b=c d.txt")]

/-! ## Helper lemmas -/

theorem find?_transfer {α : Type} (p q : α → Bool) (l : List α) (s : α)
    (hf : l.find? p = some s) (hq : q s = true)
    (himp : ∀ a, q a = true → p a = true) : l.find? q = some s := by
  induction l with
  | nil => simp at hf
  | cons x xs ih =>
    by_cases hp : p x = true
    · rw [List.find?_cons_of_pos _ hp] at hf
      injection hf with h
      subst h
      exact List.find?_cons_of_pos _ hq
    · have hqx : ¬ q x = true := fun hqx => hp (himp x hqx)
      rw [List.find?_cons_of_neg _ hp] at hf
      rw [List.find?_cons_of_neg _ hqx]
      exact ih hf

theorem Date.ltB_iff (a b : Date) :
    Date.ltB a b = true ↔
      a.year < b.year ∨ (a.year = b.year ∧
        (a.month < b.month ∨ (a.month = b.month ∧ a.day < b.day))) := by
  simp [Date.ltB]

theorem Date.leB_iff (a b : Date) :
    Date.leB a b = true ↔
      a.year < b.year ∨ (a.year = b.year ∧
        (a.month < b.month ∨ (a.month = b.month ∧ a.day ≤ b.day))) := by
  cases a with
  | mk ay am ad =>
    cases b with
    | mk by' bm bd =>
      simp [Date.leB, Date.ltB, Date.mk.injEq]
      omega

theorem Date.ltB_irrefl (a : Date) : Date.ltB a a = false := by
  simp [Date.ltB]

theorem Date.ltB_false_cases (a b : Date) (h : Date.ltB a b = false) :
    a = b ∨ Date.ltB b a = true := by
  cases a with
  | mk ay am ad =>
    cases b with
    | mk by' bm bd =>
      simp [Date.ltB, Date.mk.injEq] at h ⊢
      omega

theorem Date.leB_trans (a b c : Date) (h1 : Date.leB a b = true)
    (h2 : Date.leB b c = true) : Date.leB a c = true := by
  rw [Date.leB_iff] at h1 h2 ⊢
  omega

theorem Date.ltB_of_ltB_of_leB (a b c : Date) (h1 : Date.ltB a b = true)
    (h2 : Date.leB b c = true) : Date.ltB a c = true := by
  rw [Date.ltB_iff] at h1 ⊢
  rw [Date.leB_iff] at h2
  omega

theorem Date.ltB_next_self (d : Date) : Date.ltB d d.next = true := by
  rw [Date.next]
  split
  · simp [Date.ltB]
  · split <;> simp [Date.ltB]

theorem Date.leB_refl (d : Date) : Date.leB d d = true := by
  simp [Date.leB]

theorem Date.leB_addDays (d : Date) (k : Nat) : Date.leB d (addDays d k) = true := by
  induction k generalizing d with
  | zero => exact Date.leB_refl d
  | succ j ih =>
    show Date.leB d (addDays d.next j) = true
    refine Date.leB_trans d d.next (addDays d.next j) ?_ (ih d.next)
    simp [Date.leB, Date.ltB_next_self]

theorem Date.ltB_addDays_pos (d : Date) (k : Nat) (hk : 1 ≤ k) :
    Date.ltB d (addDays d k) = true := by
  cases k with
  | zero => omega
  | succ j =>
    show Date.ltB d (addDays d.next j) = true
    exact Date.ltB_of_ltB_of_leB d d.next _ (Date.ltB_next_self d) (Date.leB_addDays d.next j)

theorem Instant.leB_of_date_ltB (a b : Instant) (h : Date.ltB a.date b.date = true) :
    Instant.leB a b = true := by
  simp [Instant.leB, Instant.ltB, h]

theorem Instant.leB_mk_same_date (d : Date) (m1 m2 : Nat) (h : m1 ≤ m2) :
    Instant.leB ⟨d, m1, 0⟩ ⟨d, m2, 0⟩ = true := by
  simp [Instant.leB, Instant.ltB, Instant.mk.injEq]
  omega

/-! ## Claim theorems -/

/-- C1 counterexample: persisting outcome `r1` for (job 1, 2025-04-30 10:00)
and then persisting outcome `r2` for the same key leaves exactly one
`run_logs` row for the key, but that row carries `r2`'s status, not `r1`'s —
the second persist is not a no-op and it is the FIRST outcome that is
discarded. -/
theorem c1_second_persist_wins_counterexample :
    ((persistRun (persistRun ⟨[baseJob], [], []⟩ 1 wed1000 outcomeOne) 1 wed1000
        outcomeTwo).run_logs.filter (runLogKey 1 wed1000))
      = [mkRunLogRow 1 wed1000 outcomeTwo] ∧
    (mkRunLogRow 1 wed1000 outcomeTwo).status ≠ outcomeOne.status := by
  constructor
  · decide
  · decide

/-- C1 (amended): for every database, job id, scheduled minute and outcomes
`r1` then `r2`, persisting `r1` and then `r2` for the same key leaves exactly
one `run_logs` row with that key, and that row is `r2`'s: `INSERT OR REPLACE`
under the unique index gives last-write-wins, discarding `r1`'s outcome. -/
theorem c1_persist_last_write_wins (db : DB) (jobId : Nat) (st : Instant)
    (r1 r2 : RunResult) :
    ((persistRun (persistRun db jobId st r1) jobId st r2).run_logs.filter
        (runLogKey jobId st))
      = [mkRunLogRow jobId st r2] := by
  have hkey : ∀ r : RunResult, runLogKey jobId st (mkRunLogRow jobId st r) = true := by
    intro r
    simp [runLogKey, mkRunLogRow]
  simp only [persistRun, List.filter_append]
  rw [List.filter_filter]
  have h1 : ∀ l : List RunLogRow,
      l.filter (fun a => runLogKey jobId st a && !runLogKey jobId st a) = [] := by
    intro l
    induction l with
    | nil => rfl
    | cons x xs ih => simp [List.filter, Bool.and_not_self, ih]
  rw [h1]
  simp [List.filter, hkey r1, hkey r2]

/-- C1 amended, witness at a concrete state. -/
theorem c1_persist_last_write_wins_witness :
    ((persistRun (persistRun ⟨[baseJob], [], []⟩ 1 wed1000 outcomeTwo) 1 wed1000
        outcomeOne).run_logs.filter (runLogKey 1 wed1000))
      = [mkRunLogRow 1 wed1000 outcomeOne] :=
  c1_persist_last_write_wins ⟨[baseJob], [], []⟩ 1 wed1000 outcomeTwo outcomeOne

/-- C2: the active job 1 has an active monthly slot stored for day "31" at
minute 0, the clock reads midnight of 2025-04-30 — the last day of a 30-day
month — yet `_get_due_jobs` returns nothing: the SQL `WHERE` clause demands
the stored day string equal today's `f"{now.day:02d}"` exactly ("31" ≠ "30"),
so the clamp-to-last-day rule never fires and the claimed behaviour does not
occur. -/
theorem c2_monthly_clamp_never_fires :
    getDueJobs monthly31DB april30Midnight = [] := by decide

/-- C9: when the polling loop thread is alive, `start()` returns without
spawning, `ensure_running()` does nothing, and hence every sequence of
`start` / `ensure_running` calls leaves the engine state unchanged — at most
one loop thread is ever alive. -/
theorem c9_engine_idempotent_when_running (s : EngineState)
    (h : isRunning s = true) :
    engineStart s = s ∧ ensureRunning s = s ∧
      ∀ ops : List EngineOp, applyEngineOps s ops = s := by
  have hs : (s.threadSpawned && s.threadAlive) = true := h
  have hstart : engineStart s = s := by rw [engineStart, if_pos hs]
  have hens : ensureRunning s = s := by
    rw [ensureRunning, hs]
    simp
  refine ⟨hstart, hens, ?_⟩
  intro ops
  induction ops with
  | nil => rfl
  | cons o os ih =>
    cases o with
    | opStart =>
      show applyEngineOps (engineStart s) os = s
      rw [hstart]
      exact ih
    | opEnsure =>
      show applyEngineOps (ensureRunning s) os = s
      rw [hens]
      exact ih

/-- C9 witness: a running engine is untouched by a concrete call sequence. -/
theorem c9_engine_idempotent_when_running_witness :
    isRunning runningEngine = true ∧
      applyEngineOps runningEngine [.opStart, .opEnsure, .opStart] = runningEngine :=
  ⟨by decide, (c9_engine_idempotent_when_running runningEngine (by decide)).2.2 _⟩

/-- Attempt counter bound for the retry loop: starting at index `i` with
`rem` attempts remaining makes at most `i + rem` transport calls. -/
theorem requestAttemptLoop_count (t : Nat → TransportOutcome) :
    ∀ rem i, (requestAttemptLoop t rem i).2 ≤ i + rem := by
  intro rem
  induction rem using Nat.strong_induction_on with
  | _ rem ih =>
    intro i
    match rem with
    | 0 => simp [requestAttemptLoop]
    | 1 =>
      cases h : t i <;> simp [requestAttemptLoop, h]
    | r + 2 =>
      cases h : t i with
      | ok s txt =>
        simp only [requestAttemptLoop, h]
        omega
      | httpError c txt m =>
        simp only [requestAttemptLoop, h]
        omega
      | exc m =>
        simp only [requestAttemptLoop, h]
        have := ih (r + 1) (by omega) (i + 1)
        omega

/-- C7: with `retries = 2`, a transport that fails at the transport level on
the first two attempts and succeeds on the third yields the success result
after exactly three attempts; a transport answering HTTP 404 on the first
attempt yields status 404 after exactly one attempt (an HTTP error status is
terminal, not retried); and in general at most `retries + 1` attempts are
ever made. -/
theorem c7_retry_semantics (env1 env2 : HttpEnv) (e1 e2 : String) (s : Nat)
    (txt body msg : String)
    (hu1 : env1.urlOk = true)
    (h0 : env1.transport 0 = .exc e1) (h1 : env1.transport 1 = .exc e2)
    (h2 : env1.transport 2 = .ok s txt)
    (hu2 : env2.urlOk = true)
    (g0 : env2.transport 0 = .httpError 404 body msg) :
    performRequest env1 2 = .ok (⟨s, txt, ""⟩, 3) ∧
    performRequest env2 2 = .ok (⟨404, body, msg⟩, 1) ∧
    ∀ (env : HttpEnv) (retries : Nat) (res : ApiResult × Nat),
      performRequest env retries = .ok res → res.2 ≤ retries + 1 := by
  refine ⟨?_, ?_, ?_⟩
  · rw [performRequest, if_pos hu1]
    have hmax : max 1 (2 + 1) = 3 := by decide
    rw [hmax]
    simp [requestAttemptLoop, h0, h1, h2]
  · rw [performRequest, if_pos hu2]
    have hmax : max 1 (2 + 1) = 3 := by decide
    rw [hmax]
    simp [requestAttemptLoop, g0]
  · intro env retries res hres
    rw [performRequest] at hres
    by_cases hu : env.urlOk = true
    · rw [if_pos hu] at hres
      injection hres with hres
      subst hres
      have := requestAttemptLoop_count env.transport (max 1 (retries + 1)) 0
      omega
    · rw [if_neg hu] at hres
      exact absurd hres (by simp)

/-- C7 witness: the two concrete transports. -/
theorem c7_retry_semantics_witness :
    performRequest failTwiceEnv 2 = .ok (⟨200, "hello", ""⟩, 3) ∧
      performRequest notFoundEnv 2 = .ok (⟨404, "not found", "HTTP Error 404: Not Found"⟩, 1) :=
  ⟨(c7_retry_semantics failTwiceEnv notFoundEnv "connection refused" "read timed out"
      200 "hello" "not found" "HTTP Error 404: Not Found" rfl rfl rfl rfl rfl rfl).1,
   (c7_retry_semantics failTwiceEnv notFoundEnv "connection refused" "read timed out"
      200 "hello" "not found" "HTTP Error 404: Not Found" rfl rfl rfl rfl rfl rfl).2.1⟩

/-- C6: `run_job` selects exactly one backend in fixed precedence — HTTP mode
(enabled with both method and URL) delegates to the HTTP path regardless of
any other target; otherwise a `tool:`-tagged program path runs the tool path;
otherwise a non-empty batch path that exists wraps through `cmd.exe /c`
(taking precedence over the program path); otherwise an existing program path
runs with its tokenized parameters; and when neither batch path nor program
path resolves to an existing file, `run_job` returns the `failed`
configuration-error outcome without consulting any execution oracle. -/
theorem c6_dispatch_precedence (job : Job) (env : RunEnv) :
    (httpReady job = true → runJob job env = runApiPath job env) ∧
    (httpReady job = false → toolTagged job = true →
      runJob job env = .ok (runToolPath job env)) ∧
    (toolTagged job = false → job.batch_path ≠ "" →
      env.fileExists job.batch_path = true →
      buildCommand job env.fileExists = .ok (some ["cmd.exe", "/c", job.batch_path])) ∧
    (toolTagged job = false → job.batch_path = "" → job.program_path ≠ "" →
      env.fileExists job.program_path = true →
      ∀ args, splitParams job.parameters = some args →
        buildCommand job env.fileExists = .ok (some (job.program_path :: args))) ∧
    (httpReady job = false → toolTagged job = false →
      (job.batch_path ≠ "" → env.fileExists job.batch_path = false) →
      (job.program_path ≠ "" → env.fileExists job.program_path = false) →
      runJob job env =
        .ok ⟨"failed", none, "", "No executable or batch file configured.",
          env.now, env.now⟩) := by
  refine ⟨?_, ?_, ?_, ?_, ?_⟩
  · intro hh
    rw [runJob, if_pos hh]
  · intro hh ht
    rw [runJob, if_neg (by simp [hh]), if_pos ht]
  · intro ht hb hbe
    rw [buildCommand, if_neg (by simp [ht]), if_pos (by simp [hb]), if_pos hbe]
  · intro ht hb hp hpe args hargs
    rw [buildCommand, if_neg (by simp [ht]), if_neg (by simp [hb]),
      if_pos (by simp [hp]), if_pos hpe]
    by_cases hpar : job.parameters = ""
    · rw [if_neg (by simp [hpar])]
      rw [splitParams, if_pos hpar] at hargs
      injection hargs with hargs
      subst hargs
      rfl
    · rw [if_pos (by simp [hpar]), hargs]
  · intro hh ht hbmiss hpmiss
    have hbuild : buildCommand job env.fileExists = .ok none := by
      rw [buildCommand, if_neg (by simp [ht])]
      by_cases hb : job.batch_path = ""
      · rw [if_neg (by simp [hb])]
        by_cases hp : job.program_path = ""
        · rw [if_neg (by simp [hp])]
        · rw [if_pos (by simp [hp]), if_neg (by simp [hpmiss hp])]
      · rw [if_pos (by simp [hb]), if_neg (by simp [hbmiss hb])]
    rw [runJob, if_neg (by simp [hh]), if_neg (by simp [ht]), hbuild]

/-- C6 witness: each branch of the precedence order at concrete jobs in the
two-file environment, plus the configuration-failure outcome. -/
theorem c6_dispatch_precedence_witness :
    runJob apiJob twoFilesEnv = runApiPath apiJob twoFilesEnv ∧
    runJob toolJob twoFilesEnv = .ok (runToolPath toolJob twoFilesEnv) ∧
    buildCommand batchJob twoFilesEnv.fileExists
      = .ok (some ["cmd.exe", "/c", "C:/job.bat"]) ∧
    buildCommand programJob twoFilesEnv.fileExists
      = .ok (some ["C:/tool.exe", "-a", "\"b c\""]) ∧
    runJob ghostJob twoFilesEnv =
      .ok ⟨"failed", none, "", "No executable or batch file configured.",
        wed1000, wed1000⟩ :=
  ⟨(c6_dispatch_precedence apiJob twoFilesEnv).1 rfl,
   (c6_dispatch_precedence toolJob twoFilesEnv).2.1 rfl rfl,
   (c6_dispatch_precedence batchJob twoFilesEnv).2.2.1 rfl (by decide) rfl,
   (c6_dispatch_precedence programJob twoFilesEnv).2.2.2.1 rfl rfl (by decide) rfl
     ["-a", "\"b c\""] (by decide),
   (c6_dispatch_precedence ghostJob twoFilesEnv).2.2.2.2 rfl rfl
     (fun h => absurd h (by decide)) (fun _ => rfl)⟩

/-- Error analysis of `_build_command`: the only exception it can raise is
the `shlex` tokenization failure of the parameter string. -/
theorem buildCommand_error (job : Job) (ex : String → Bool) (e : RunErr)
    (h : buildCommand job ex = .error e) : splitParams job.parameters = none := by
  rw [buildCommand] at h
  by_cases ht : toolTagged job = true
  · rw [if_pos ht] at h
    exact absurd h (by simp)
  · rw [if_neg ht] at h
    by_cases hb : (job.batch_path != "") = true
    · rw [if_pos hb] at h
      by_cases hbe : ex job.batch_path = true
      · rw [if_pos hbe] at h
        exact absurd h (by simp)
      · rw [if_neg hbe] at h
        exact absurd h (by simp)
    · rw [if_neg hb] at h
      by_cases hp : (job.program_path != "") = true
      · rw [if_pos hp] at h
        by_cases hpe : ex job.program_path = true
        · rw [if_pos hpe] at h
          by_cases hpar : (job.parameters != "") = true
          · rw [if_pos hpar] at h
            cases hsp : splitParams job.parameters with
            | none => rfl
            | some args =>
              rw [hsp] at h
              exact absurd h (by simp)
          · rw [if_neg hpar] at h
            exact absurd h (by simp)
        · rw [if_neg hpe] at h
          exact absurd h (by simp)
      · rw [if_neg hp] at h
        exact absurd h (by simp)

/-- C5 counterexample: for the HTTP-mode job in an environment where the
`Schedule API/request.py` backend file is missing, `run_job` does not return
an outcome record — the dispatcher propagates the `ImportError` raised by the
dynamic module load, which `_run_api` does not catch. -/
theorem c5_run_job_raises_counterexample :
    runJob apiJob noBackendEnv = .error .importError := by rfl

/-- C5 (amended): `run_job` returns a structured `RunResult` for every
job-level failure except two uncaught paths: the HTTP branch (where a missing
backend module or a failing request construction raises out of
`perform_request`) and `shlex` tokenization failure of the parameter string
in `_build_command`; whenever an exception escapes, the job was in one of
those two situations. -/
theorem c5_run_job_total_otherwise (job : Job) (env : RunEnv) (e : RunErr)
    (h : runJob job env = .error e) :
    httpReady job = true ∨ splitParams job.parameters = none := by
  rw [runJob] at h
  by_cases hh : httpReady job = true
  · exact Or.inl hh
  · rw [if_neg hh] at h
    by_cases ht : toolTagged job = true
    · rw [if_pos ht] at h
      exact absurd h (by simp)
    · rw [if_neg ht] at h
      split at h
      · rename_i e2 heq
        exact Or.inr (buildCommand_error job env.fileExists e2 heq)
      · exact absurd h (by simp)
      · split at h <;> (try split at h) <;> simp at h

/-- C5 amended, witness: the escaping error of the counterexample indeed
falls in the HTTP branch. -/
theorem c5_run_job_total_otherwise_witness :
    httpReady apiJob = true ∨ splitParams apiJob.parameters = none :=
  c5_run_job_total_otherwise apiJob noBackendEnv .importError rfl

/-- Every `DueJob` produced by the post-filter loop body is the pair's job and
slot with the current minute, and the loop body lets it through only when the
once-per-day guard and the run-log guard are both clear. -/
theorem dueRowStep_some (db : DB) (now : Instant) (js : Job × SlotRow) (d : DueJob)
    (h : dueRowStep db now js = some d) :
    d = ⟨js.1, js.2.id, floorMinute now⟩ ∧
      suppressedToday js.1 now = false ∧ hasRunLog db js.1.id now = false := by
  dsimp only [dueRowStep] at h
  split at h
  · exact absurd h (by simp)
  · split at h
    · exact absurd h (by simp)
    · split at h
      · split at h
        · exact absurd h (by simp)
        · split at h
          · exact absurd h (by simp)
          · injection h with h
            subst h
            refine ⟨rfl, ?_, ?_⟩ <;> simp_all
      · injection h with h
        subst h
        refine ⟨rfl, ?_, ?_⟩ <;> simp_all

/-- Membership in the SQL row set of `_get_due_jobs`. -/
theorem mem_sqlDueRows (db : DB) (now : Instant) (j : Job) (s : SlotRow) :
    (j, s) ∈ sqlDueRows db now ↔
      s ∈ db.schedules ∧ j ∈ db.jobs ∧ j.id = s.job_id ∧
        (j.active && s.active && (s.minute_of_day == now.minuteOfDay) &&
          typeCond s now) = true := by
  constructor
  · intro hm
    rw [sqlDueRows, List.mem_filter] at hm
    obtain ⟨hmem, hcond⟩ := hm
    rw [List.mem_flatMap] at hmem
    obtain ⟨s2, hs2, hmap⟩ := hmem
    rw [List.mem_map] at hmap
    obtain ⟨j2, hj2, hpair⟩ := hmap
    rw [List.mem_filter] at hj2
    obtain ⟨hj2m, hj2id⟩ := hj2
    have hj12 : j2 = j := congrArg Prod.fst hpair
    have hs12 : s2 = s := congrArg Prod.snd hpair
    subst hj12
    subst hs12
    exact ⟨hs2, hj2m, by simpa using hj2id, hcond⟩
  · intro ⟨hs, hj, hid, hcond⟩
    rw [sqlDueRows, List.mem_filter]
    refine ⟨?_, hcond⟩
    rw [List.mem_flatMap]
    refine ⟨s, hs, ?_⟩
    rw [List.mem_map]
    exact ⟨j, List.mem_filter.mpr ⟨hj, by simp [hid]⟩, rfl⟩

/-- C8: a job with `once_per_day = true` whose `last_run_at` falls on the
current calendar date never appears in `_get_due_jobs`, whatever its slots
and the rest of the database contain. -/
theorem c8_once_per_day_suppression (db : DB) (now : Instant) (j : Job)
    (lr : Instant) (h1 : j.once_per_day = true) (h2 : j.last_run_at = some lr)
    (h3 : lr.date = now.date) :
    (getDueJobs db now).all (fun d => !(d.job == j)) = true := by
  rw [List.all_eq_true]
  intro d hd
  rw [getDueJobs, List.mem_filterMap] at hd
  obtain ⟨js, _, hstep⟩ := hd
  obtain ⟨hdval, hsup, _⟩ := dueRowStep_some db now js d hstep
  simp only [Bool.not_eq_eq_eq_not, Bool.not_true, beq_eq_false_iff_ne, ne_eq]
  intro hjd
  have hj1 : js.1 = j := by rw [hdval] at hjd; exact hjd
  rw [hj1] at hsup
  have hsup2 : suppressedToday j now = true := by
    rw [suppressedToday, h1, h2]
    simp [h3]
  rw [hsup2] at hsup
  exact absurd hsup (by simp)

/-- C8 witness: the once-per-day job that already ran on 2025-04-30 is absent
from the due list at 10:00 even though its every-day slot matches. -/
theorem c8_once_per_day_suppression_witness :
    (getDueJobs ranTodayDB wed1000).all (fun d => !(d.job == ranTodayJob)) = true :=
  c8_once_per_day_suppression ranTodayDB wed1000 ranTodayJob
    ⟨⟨2025, 4, 30⟩, 480, 15⟩ rfl rfl rfl

/-- C4 counterexample: the once-per-day job has an active recurring slot whose
weekday bit is set for Wednesday 2025-04-30 and whose minute equals 10:00,
yet `_get_due_jobs` returns nothing — the claimed equivalence fails in the
right-to-left direction because of the once-per-day suppression. -/
theorem c4_recurring_iff_counterexample :
    (ranTodayJob.active = true ∧ recSlot.active = true ∧
      recSlot.schedule_type = "recurring" ∧
      (recSlot.days_mask &&& weekday_mask wed1000.date) ≠ 0 ∧
      recSlot.minute_of_day = wed1000.minuteOfDay) ∧
    getDueJobs ranTodayDB wed1000 = [] := by
  constructor
  · refine ⟨rfl, rfl, rfl, ?_, rfl⟩
    decide
  · decide

/-- C4 (amended): for an active job with an active recurring slot (in a
database whose slot ids are unique, as the primary key guarantees), the due
list contains the corresponding entry iff the slot's weekday bit is set for
now, its minute equals now's minute of day, and the job is excluded neither
by the once-per-day guard nor by an existing run log for the current minute. -/
theorem c4_recurring_due_iff_guards (db : DB) (now : Instant) (j : Job)
    (s : SlotRow) (hj : j ∈ db.jobs) (hja : j.active = true)
    (hs : s ∈ db.schedules) (hsa : s.active = true) (hlink : s.job_id = j.id)
    (hst : s.schedule_type = "recurring")
    (hids : (db.schedules.map SlotRow.id).Nodup) :
    ((⟨j, s.id, floorMinute now⟩ : DueJob) ∈ getDueJobs db now) ↔
      ((s.days_mask &&& weekday_mask now.date) ≠ 0 ∧
        s.minute_of_day = now.minuteOfDay ∧
        suppressedToday j now = false ∧ hasRunLog db j.id now = false) := by
  constructor
  · intro hm
    rw [getDueJobs, List.mem_filterMap] at hm
    obtain ⟨js, hjs, hstep⟩ := hm
    obtain ⟨hdval, hsup, hlog⟩ := dueRowStep_some db now js _ hstep
    have hj1 : j = js.1 := congrArg DueJob.job hdval
    have hsid : s.id = js.2.id := congrArg DueJob.schedule_id hdval
    rw [mem_sqlDueRows] at hjs
    obtain ⟨hs2, _, _, hcond⟩ := hjs
    have hseq : s = js.2 := List.inj_on_of_nodup_map hids hs hs2 hsid
    rw [← hseq] at hcond
    have hmin : s.minute_of_day = now.minuteOfDay := by
      simp only [Bool.and_eq_true, beq_iff_eq] at hcond
      exact hcond.1.2
    have htc : typeCond s now = true := by
      simp only [Bool.and_eq_true] at hcond
      exact hcond.2
    rw [typeCond, hst] at htc
    simp at htc
    rw [← hj1] at hsup hlog
    exact ⟨by simpa using htc, hmin, hsup, hlog⟩
  · intro ⟨hbit, hmin, hsup, hlog⟩
    rw [getDueJobs, List.mem_filterMap]
    refine ⟨(j, s), ?_, ?_⟩
    · rw [mem_sqlDueRows]
      refine ⟨hs, hj, hlink.symm, ?_⟩
      rw [typeCond, hst]
      simp [hja, hsa, hmin, hbit]
    · rw [dueRowStep]
      simp only [hsup, hlog, hst]
      simp

/-- C4 amended, witness: the plain recurring job is due at Wednesday 10:00. -/
theorem c4_recurring_due_iff_guards_witness :
    (⟨baseJob, recSlot.id, floorMinute wed1000⟩ : DueJob) ∈
      getDueJobs recurringDB wed1000 :=
  (c4_recurring_due_iff_guards recurringDB wed1000 baseJob recSlot
      (by decide) rfl (by decide) rfl rfl rfl (by decide)).mpr
    ⟨by decide, rfl, rfl, rfl⟩

/-- The helper `splitChar` always returns at least one (possibly empty) part. -/
theorem splitChar_ne_nil (sep : Char) (l : List Char) : splitChar sep l ≠ [] := by
  cases l with
  | nil => simp [splitChar]
  | cons c cs =>
    rw [splitChar]
    cases h : splitChar sep cs with
    | nil => simp
    | cons t ts =>
      by_cases hc : c = sep <;> simp [hc]

/-- Splitting a separator-free chunk yields that single chunk. -/
theorem splitChar_of_not_mem (sep : Char) (x : List Char) (hx : sep ∉ x) :
    splitChar sep x = [x] := by
  induction x with
  | nil => rfl
  | cons c cs ih =>
    have hc : ¬ c = sep := fun h => hx (h ▸ List.mem_cons_self c cs)
    rw [splitChar, ih (fun h => hx (List.mem_cons_of_mem c h))]
    simp [hc]

/-- Splitting a separator-free chunk followed by a separator peels the chunk. -/
theorem splitChar_append (sep : Char) (x rest : List Char) (hx : sep ∉ x) :
    splitChar sep (x ++ sep :: rest) = x :: splitChar sep rest := by
  induction x with
  | nil =>
    simp only [List.nil_append]
    rw [splitChar]
    cases h : splitChar sep rest with
    | nil => exact absurd h (splitChar_ne_nil sep rest)
    | cons t ts => simp
  | cons c cs ih =>
    have hc : ¬ c = sep := fun h => hx (h ▸ List.mem_cons_self c cs)
    rw [List.cons_append, splitChar, ih (fun h => hx (List.mem_cons_of_mem c h))]
    simp [hc]

/-- Splitting inverts joining when no chunk contains the separator. -/
theorem splitChar_joinChar (sep : Char) (items : List (List Char))
    (hne : items ≠ []) (hsep : ∀ it ∈ items, sep ∉ it) :
    splitChar sep (joinChar sep items) = items := by
  induction items with
  | nil => contradiction
  | cons x xs ih =>
    cases xs with
    | nil =>
      exact splitChar_of_not_mem sep x (hsep x (List.mem_cons_self x []))
    | cons y ys =>
      rw [joinChar, splitChar_append sep x _ (hsep x (List.mem_cons_self x _)),
        ih (by simp) (fun it hit => hsep it (List.mem_cons_of_mem x hit))]

/-- Taking while a predicate holds stops exactly at the first failing character. -/
theorem takeWhile_append_stop (p : Char → Bool) (k : List Char) (d : Char)
    (v : List Char) (h1 : ∀ c ∈ k, p c = true) (h2 : p d = false) :
    (k ++ d :: v).takeWhile p = k := by
  induction k with
  | nil => simp [List.takeWhile_cons, h2]
  | cons c cs ih =>
    rw [List.cons_append, List.takeWhile_cons,
      h1 c (List.mem_cons_self c cs)]
    rw [ih (fun c hc => h1 c (List.mem_cons_of_mem _ hc))]
    simp

/-- Dropping while a predicate holds drops exactly up to the first failing character. -/
theorem dropWhile_append_stop (p : Char → Bool) (k : List Char) (d : Char)
    (v : List Char) (h1 : ∀ c ∈ k, p c = true) (h2 : p d = false) :
    (k ++ d :: v).dropWhile p = d :: v := by
  induction k with
  | nil => simp [List.dropWhile_cons, h2]
  | cons c cs ih =>
    rw [List.cons_append, List.dropWhile_cons,
      h1 c (List.mem_cons_self c cs)]
    simp only [if_true]
    exact ih (fun c hc => h1 c (List.mem_cons_of_mem _ hc))

/-- The parse step recovers a serialized `key=value` item exactly when the key
contains no `=`. -/
theorem parseItemStep_kv (acc : List (String × String)) (k v : String)
    (hk : '=' ∉ k.data) :
    parseItemStep acc (k.data ++ '=' :: v.data) = dictInsert acc k v := by
  dsimp only [parseItemStep]
  rw [if_neg (by simp), if_pos (by simp)]
  rw [takeWhile_append_stop _ _ _ _ (fun c hc => by simp; intro he; exact hk (he ▸ hc)) (by simp)]
  rw [dropWhile_append_stop _ _ _ _ (fun c hc => by simp; intro he; exact hk (he ▸ hc)) (by simp)]
  rfl

/-- Inserting a fresh key into the dict appends it at the end. -/
theorem dictInsert_fresh (acc : List (String × String)) (k v : String)
    (h : ∀ kv ∈ acc, kv.1 ≠ k) : dictInsert acc k v = acc ++ [(k, v)] := by
  have hany : ¬ (acc.any fun kv => kv.1 == k) = true := by
    intro hex
    obtain ⟨kv, hkv, hbeq⟩ := List.any_eq_true.mp hex
    exact h kv hkv (by simpa using hbeq)
  rw [dictInsert, if_neg hany]

/-- Folding the parse step over freshly-keyed serialized items appends them. -/
theorem parse_fold_append (p : List (String × String))
    (acc : List (String × String))
    (hcond : ∀ kv ∈ p, '=' ∉ kv.1.data)
    (hnd : (p.map Prod.fst).Nodup)
    (hdisj : ∀ kv ∈ p, ∀ kv2 ∈ acc, kv2.1 ≠ kv.1) :
    (p.map (fun kv => kv.1.data ++ '=' :: kv.2.data)).foldl parseItemStep acc
      = acc ++ p := by
  induction p generalizing acc with
  | nil => simp
  | cons kv rest ih =>
    rw [List.map_cons, List.foldl_cons]
    have hstep : parseItemStep acc (kv.1.data ++ '=' :: kv.2.data) = acc ++ [kv] := by
      rw [parseItemStep_kv acc kv.1 kv.2 (hcond kv (List.mem_cons_self kv rest))]
      exact dictInsert_fresh acc kv.1 kv.2
        (fun kv2 hkv2 => hdisj kv (List.mem_cons_self kv rest) kv2 hkv2)
    rw [hstep]
    rw [List.map_cons, List.nodup_cons] at hnd
    rw [ih (acc ++ [kv])
      (fun kv2 h2 => hcond kv2 (List.mem_cons_of_mem kv h2))
      hnd.2
      (fun kv2 h2 kv3 h3 => by
        rcases List.mem_append.mp h3 with h3a | h3b
        · exact hdisj kv2 (List.mem_cons_of_mem kv h2) kv3 h3a
        · rcases List.mem_singleton.mp h3b with rfl
          intro he
          exact hnd.1 (he ▸ List.mem_map_of_mem Prod.fst h2))]
    simp

/-- C10: for every insertion-ordered tool-parameter dictionary whose keys are
non-empty and contain neither `=` nor `;` and whose values contain no `;`,
`parse_tool_params` inverts `serialize_tool_params`. -/
theorem c10_tool_params_round_trip (p : List (String × String))
    (hcond : ∀ kv ∈ p,
      kv.1 ≠ "" ∧ '=' ∉ kv.1.data ∧ ';' ∉ kv.1.data ∧ ';' ∉ kv.2.data)
    (hnd : (p.map Prod.fst).Nodup) :
    parse_tool_params (serialize_tool_params p) = p := by
  cases p with
  | nil => rfl
  | cons kv rest =>
    rw [serialize_tool_params, parse_tool_params]
    have hraw : (String.mk (joinChar ';'
        ((kv :: rest).map fun kv => kv.1.data ++ '=' :: kv.2.data))).data
        = joinChar ';' ((kv :: rest).map fun kv => kv.1.data ++ '=' :: kv.2.data) := rfl
    rw [hraw]
    have hjoin_ne : joinChar ';'
        ((kv :: rest).map fun kv => kv.1.data ++ '=' :: kv.2.data) ≠ [] := by
      rw [List.map_cons]
      cases hrm : rest.map (fun kv => kv.1.data ++ '=' :: kv.2.data) with
      | nil => rw [joinChar]; simp
      | cons y ys => rw [joinChar]; simp
    rw [if_neg hjoin_ne]
    rw [splitChar_joinChar ';' _ (by simp)
      (fun it hit => by
        rw [List.mem_map] at hit
        obtain ⟨kv2, hkv2, rfl⟩ := hit
        obtain ⟨_, _, hks, hvs⟩ := hcond kv2 hkv2
        intro hmem
        rcases List.mem_append.mp hmem with hk | hv
        · exact hks hk
        · rcases List.mem_cons.mp hv with he | hv2
          · exact absurd he (by decide)
          · exact hvs hv2)]
    rw [parse_fold_append (kv :: rest) []
      (fun kv2 h2 => (hcond kv2 h2).2.1) hnd (fun _ _ _ h => absurd h (List.not_mem_nil _))]
    simp

/-- C10 witness: a concrete dictionary whose value even contains `=`. -/
theorem c10_tool_params_round_trip_witness :
    parse_tool_params (serialize_tool_params roundTripParams) = roundTripParams :=
  c10_tool_params_round_trip roundTripParams (by decide) (by decide)

/-- Propositional reading of the recurring slot filter. -/
theorem recPred_iff (now : Instant) (k : Nat) (s : SlotRow) :
    recPred now k s = true ↔
      ((s.days_mask &&& weekday_mask (addDays now.date k)) ≠ 0 ∧
        (k = 0 → now.minuteOfDay ≤ s.minute_of_day)) := by
  simp [recPred]
  omega

/-- Propositional reading of the date/monthly slot filter. -/
theorem notPastOn_iff (now : Instant) (target : Date) (s : SlotRow) :
    notPastOn now target s = true ↔
      (target = now.date → now.minuteOfDay ≤ s.minute_of_day) := by
  rw [notPastOn]
  by_cases heq : target = now.date
  · simp [heq]
  · simp [heq]

/-- Unfolding of a successful recurring scan: some day offset in the list has
a first matching slot, and the result combines that day with the slot minute. -/
theorem nextRecurringAux_elim (slots : List SlotRow) (now : Instant)
    (ks : List Nat) (r : Instant) (h : nextRecurringAux slots now ks = some r) :
    ∃ k ∈ ks, ∃ s, slots.find? (recPred now k) = some s ∧
      r = ⟨addDays now.date k, s.minute_of_day, 0⟩ := by
  induction ks with
  | nil => simp [nextRecurringAux] at h
  | cons k ks ih =>
    rw [nextRecurringAux] at h
    cases hf : slots.find? (recPred now k) with
    | some s =>
      rw [hf] at h
      injection h with h
      exact ⟨k, List.mem_cons_self k ks, s, hf, h.symm⟩
    | none =>
      rw [hf] at h
      obtain ⟨k2, hk2, s, hfs, hr⟩ := ih h
      exact ⟨k2, List.mem_cons_of_mem k hk2, s, hfs, hr⟩

/-- A successful `_next_recurring_run` result is not before the reference
minute, and re-running from the result returns the result again. -/
theorem nextRecurringRun_spec (slots : List SlotRow) (now r : Instant)
    (h : nextRecurringRun slots now = some r) :
    Instant.leB (floorMinute now) r = true ∧ nextRecurringRun slots r = some r := by
  obtain ⟨k, _, s, hf, hr⟩ := nextRecurringAux_elim slots now (List.range 8) r h
  have hp := recPred_iff now k s |>.mp (List.find?_some hf)
  subst hr
  constructor
  · cases k with
    | zero =>
      show Instant.leB ⟨now.date, now.minuteOfDay, 0⟩ ⟨now.date, s.minute_of_day, 0⟩ = true
      exact Instant.leB_mk_same_date now.date _ _ (hp.2 rfl)
    | succ j =>
      exact Instant.leB_of_date_ltB _ _ (Date.ltB_addDays_pos now.date (j + 1) (by omega))
  · rw [nextRecurringRun]
    have hrange : List.range 8 = 0 :: [1, 2, 3, 4, 5, 6, 7] := rfl
    rw [hrange, nextRecurringAux]
    have hfind : slots.find?
        (recPred ⟨addDays now.date k, s.minute_of_day, 0⟩ 0) = some s := by
      apply find?_transfer (recPred now k) _ slots s hf
      · rw [recPred_iff]
        exact ⟨hp.1, fun _ => Nat.le_refl _⟩
      · intro a hqa
        rw [recPred_iff] at hqa ⊢
        refine ⟨hqa.1, fun hk => ?_⟩
        subst hk
        exact Nat.le_trans (hp.2 rfl) (hqa.2 rfl)
    rw [hfind]
    rfl

/-- A successful `_next_date_run` result is not before the reference minute,
and re-running from the result returns the result again. -/
theorem nextDateRun_spec (slots : List SlotRow) (now r : Instant)
    (h : nextDateRun slots now = some r) :
    Instant.leB (floorMinute now) r = true ∧ nextDateRun slots r = some r := by
  cases slots with
  | nil => simp [nextDateRun] at h
  | cons s0 rest =>
    rw [nextDateRun] at h
    cases hd : s0.date with
    | none => rw [hd] at h; exact absurd h (by simp)
    | some dstr =>
      rw [hd] at h
      dsimp only at h
      by_cases hds : dstr = ""
      · rw [if_pos hds] at h; exact absurd h (by simp)
      · rw [if_neg hds] at h
        cases hpi : parseIsoDate dstr with
        | none => rw [hpi] at h; exact absurd h (by simp)
        | some target =>
          rw [hpi] at h
          dsimp only at h
          by_cases hlt : Date.ltB target now.date = true
          · rw [if_pos hlt] at h; exact absurd h (by simp)
          · rw [if_neg hlt] at h
            cases hf : (s0 :: rest).find? (notPastOn now target) with
            | none => rw [hf] at h; exact absurd h (by simp)
            | some s =>
              rw [hf] at h
              dsimp only at h
              injection h with h
              subst h
              have hp := notPastOn_iff now target s |>.mp (List.find?_some hf)
              constructor
              · rcases Date.ltB_false_cases target now.date
                    (Bool.not_eq_true _ ▸ hlt) with heq | hgt
                · rw [heq]
                  exact Instant.leB_mk_same_date now.date _ _ (hp heq)
                · exact Instant.leB_of_date_ltB _ _ hgt
              · rw [nextDateRun, hd]
                dsimp only
                rw [if_neg hds, hpi]
                dsimp only
                rw [if_neg (by rw [Date.ltB_irrefl]; simp)]
                have hfind : (s0 :: rest).find?
                    (notPastOn ⟨target, s.minute_of_day, 0⟩ target) = some s := by
                  apply find?_transfer (notPastOn now target) _ _ s hf
                  · rw [notPastOn_iff]
                    exact fun _ => Nat.le_refl _
                  · intro a hqa
                    rw [notPastOn_iff] at hqa ⊢
                    intro heq
                    exact Nat.le_trans (hp heq) (hqa rfl)
                rw [hfind]

/-- The candidate month of `_next_monthly_run` always lies in 1..12. -/
theorem monthCandidate_month_bounds (d : Date) (j : Nat) :
    1 ≤ (monthCandidate d j).2 ∧ (monthCandidate d j).2 ≤ 12 := by
  rw [monthCandidate]
  omega

/-- At month offset 0 from a date with a valid month, the candidate is the
date's own year and month. -/
theorem monthCandidate_zero (d : Date) (h1 : 1 ≤ d.month) (h2 : d.month ≤ 12) :
    monthCandidate d 0 = (d.year, d.month) := by
  rw [monthCandidate]
  congr 1 <;> omega

/-- Re-deriving the monthly candidate from an already-computed candidate date
at offset 0 reproduces it. -/
theorem monthlyTarget_idem (d : Date) (sday j : Nat) :
    monthlyTarget (monthlyTarget d sday j) sday 0 = monthlyTarget d sday j := by
  have hb := monthCandidate_month_bounds d j
  have hz := monthCandidate_zero (monthlyTarget d sday j) hb.1 hb.2
  rw [monthlyTarget, hz]
  rfl

/-- Unfolding of a successful monthly scan. -/
theorem nextMonthlyAux_elim (slots : List SlotRow) (now : Instant) (sday : Nat)
    (js : List Nat) (r : Instant) (h : nextMonthlyAux slots now sday js = some r) :
    ∃ j ∈ js, (monthlyTarget now.date sday j).day ≠ 0 ∧
      Date.ltB (monthlyTarget now.date sday j) now.date = false ∧
      ∃ s, slots.find? (notPastOn now (monthlyTarget now.date sday j)) = some s ∧
        r = ⟨monthlyTarget now.date sday j, s.minute_of_day, 0⟩ := by
  induction js with
  | nil => simp [nextMonthlyAux] at h
  | cons j js ih =>
    rw [nextMonthlyAux] at h
    by_cases h0 : (monthlyTarget now.date sday j).day = 0
    · rw [if_pos h0] at h
      exact absurd h (by simp)
    · rw [if_neg h0] at h
      by_cases hlt : Date.ltB (monthlyTarget now.date sday j) now.date = true
      · rw [if_pos hlt] at h
        obtain ⟨j2, hj2, rest⟩ := ih h
        exact ⟨j2, List.mem_cons_of_mem j hj2, rest⟩
      · rw [if_neg hlt] at h
        cases hf : slots.find? (notPastOn now (monthlyTarget now.date sday j)) with
        | some s =>
          rw [hf] at h
          dsimp only at h
          injection h with h
          exact ⟨j, List.mem_cons_self j js, h0, by simpa using hlt, s, hf, h.symm⟩
        | none =>
          rw [hf] at h
          obtain ⟨j2, hj2, rest⟩ := ih h
          exact ⟨j2, List.mem_cons_of_mem j hj2, rest⟩

/-- A successful `_next_monthly_run` result is not before the reference
minute, and re-running from the result returns the result again. -/
theorem nextMonthlyRun_spec (slots : List SlotRow) (now r : Instant)
    (h : nextMonthlyRun slots now = some r) :
    Instant.leB (floorMinute now) r = true ∧ nextMonthlyRun slots r = some r := by
  cases slots with
  | nil => simp [nextMonthlyRun] at h
  | cons s0 rest =>
    rw [nextMonthlyRun] at h
    cases hps : parseNatDigits (s0.date.getD "") with
    | none => rw [hps] at h; exact absurd h (by simp)
    | some sday =>
      rw [hps] at h
      dsimp only at h
      obtain ⟨j, _, h0, hlt, s, hf, hr⟩ := nextMonthlyAux_elim _ now sday _ _ h
      have hp := notPastOn_iff now _ s |>.mp (List.find?_some hf)
      subst hr
      constructor
      · rcases Date.ltB_false_cases _ _ hlt with heq | hgt
        · rw [heq]
          exact Instant.leB_mk_same_date now.date _ _ (hp heq)
        · exact Instant.leB_of_date_ltB _ _ hgt
      · rw [nextMonthlyRun, hps]
        dsimp only
        have hrange : List.range 13 = 0 :: [1, 2, 3, 4, 5, 6, 7, 8, 9, 10, 11, 12] := rfl
        rw [hrange, nextMonthlyAux]
        dsimp only
        rw [monthlyTarget_idem now.date sday j]
        rw [if_neg h0, if_neg (by rw [Date.ltB_irrefl]; simp)]
        have hfind : (s0 :: rest).find?
            (notPastOn ⟨monthlyTarget now.date sday j, s.minute_of_day, 0⟩
              (monthlyTarget now.date sday j)) = some s := by
          apply find?_transfer (notPastOn now (monthlyTarget now.date sday j)) _ _ s hf
          · rw [notPastOn_iff]
            exact fun _ => Nat.le_refl _
          · intro a hqa
            rw [notPastOn_iff] at hqa ⊢
            intro heq
            exact Nat.le_trans (hp heq) (hqa rfl)
        rw [hfind]

/-- C3 counterexample: for the every-day recurring job with active slot at
minute 600, the reference instant Wednesday 2025-04-30 10:00:30 yields
`next_run_for_job` = 10:00:00 of the same day, which is strictly BEFORE the
reference (so `nextRun(job, t) >= t` fails), and calling `next_run_for_job`
again with the returned instant yields the very same instant, not a strictly
later occurrence (slots at exactly the reference minute are not skipped —
the code skips only strictly earlier minutes). -/
theorem c3_monotonicity_counterexample :
    nextRunForJob [recSlot] 1 wed1000s30 = some wed1000 ∧
    Instant.leB wed1000s30 wed1000 = false ∧
    nextRunForJob [recSlot] 1 wed1000 = some wed1000 := by
  refine ⟨by decide, by decide, by decide⟩

/-- C3 (amended): for every slot table, job id and reference instant, a
`next_run_for_job` result is never earlier than the reference truncated to
its minute, and calling `next_run_for_job` again with the returned instant
yields that same instant again (the following occurrence is obtained only
from references strictly after the returned minute, not by re-feeding the
result). -/
theorem c3_next_run_floor_monotone_idem (slots : List SlotRow) (jobId : Nat)
    (t r : Instant) (h : nextRunForJob slots jobId t = some r) :
    Instant.leB (floorMinute t) r = true ∧ nextRunForJob slots jobId r = some r := by
  rw [nextRunForJob] at h ⊢
  cases hact : activeSortedSlots slots jobId with
  | nil =>
    rw [hact] at h
    exact absurd h (by simp)
  | cons s0 rest =>
    rw [hact] at h
    dsimp only at h ⊢
    by_cases hd : (s0.schedule_type == "date") = true
    · rw [if_pos hd] at h ⊢
      exact nextDateRun_spec (s0 :: rest) t r h
    · rw [if_neg hd] at h ⊢
      by_cases hm : (s0.schedule_type == "monthly") = true
      · rw [if_pos hm] at h ⊢
        exact nextMonthlyRun_spec (s0 :: rest) t r h
      · rw [if_neg hm] at h ⊢
        exact nextRecurringRun_spec (s0 :: rest) t r h

/-- C3 amended, witness: the recurring fixture evaluated concretely. -/
theorem c3_next_run_floor_monotone_idem_witness :
    nextRunForJob [recSlot] 1 wed1000s30 = some wed1000 ∧
      (Instant.leB (floorMinute wed1000s30) wed1000 = true ∧
        nextRunForJob [recSlot] 1 wed1000 = some wed1000) :=
  ⟨by decide, c3_next_run_floor_monotone_idem [recSlot] 1 wed1000s30 wed1000 (by decide)⟩
